import Mathlib

/-!
  # ThreadPool.hpp — shallow embedding and verification

  A sequential shallow embedding of the `ThreadPool` class of
  `src/ThreadPool.hpp`. The pool's shared mutable record (worker handles,
  FIFO task queue, counters, stop flag) becomes a `PoolState` structure;
  each member function becomes a state transformer; the worker loop's one
  productive iteration (dequeue the front task, execute it, bump
  `_num_finished`) becomes `workerRunOnce`. Tasks carry no payload the
  pool inspects, so they are modelled as bare `Nat` identifiers; a worker
  handle is modelled by its joinability (`Bool`), the only property the
  pool ever queries. Blocking waits (`WaitTill`, `WaitTillAll`) are
  modelled by their condition-variable wake predicate over the current
  state together with the value the call returns once woken.
-/

namespace ThreadPool

/-- The pool's shared state: the fields of class `ThreadPool`
(ThreadPool.hpp lines 16–29). `_threads` keeps, for each worker handle in
vector order, whether the handle is still joinable; `_tasks` is the FIFO
queue with its front at the head of the list. -/
structure PoolState where
  _threads : List Bool
  _tasks : List Nat
  _num_threads : Nat
  _num_started : Nat
  _num_killed : Nat
  _num_finished : Nat
  _num_detached : Nat
  _stop : Bool
deriving Repr, DecidableEq

/-- The constructor `ThreadPool(size_t num_threads)` (lines 33–67): all
counters zero, `_stop` false, an empty queue, and `num_threads` freshly
spawned (joinable) worker handles. -/
def construct (num_threads : Nat) : PoolState :=
  { _threads := List.replicate num_threads true
    _tasks := []
    _num_threads := num_threads
    _num_started := 0
    _num_killed := 0
    _num_finished := 0
    _num_detached := 0
    _stop := false }

/-- `Invoke` (lines 78–88): if the pool is not stopped, append the bound
task at the back of the queue and increment `_num_started`; otherwise do
nothing at all. -/
def Invoke (t : Nat) (s : PoolState) : PoolState :=
  if !s._stop then
    { s with _tasks := s._tasks ++ [t], _num_started := s._num_started + 1 }
  else s

/-- `IsNoPending` (lines 92–95). -/
def IsNoPending (s : PoolState) : Bool :=
  s._tasks.isEmpty

/-- `PendingTaskNum` (lines 98–101). -/
def PendingTaskNum (s : PoolState) : Nat :=
  s._tasks.length

/-- The drain loop shared by `KillAllPending`, `Stop`, `StopForced` and the
shrink branch of `ResetThreadNum`:
`while (!_tasks.empty()) { _tasks.pop(); _num_killed++; }` — returns the
final queue and the final `_num_killed`. -/
def drainKill : List Nat → Nat → List Nat × Nat
  | [], killed => ([], killed)
  | _t :: rest, killed => drainKill rest (killed + 1)

/-- `KillAllPending` (lines 104–111): run the drain loop; nothing else
changes. -/
def KillAllPending (s : PoolState) : PoolState :=
  let drained := drainKill s._tasks s._num_killed
  { s with _tasks := drained.1, _num_killed := drained.2 }

/-- The condition-variable predicate on which `WaitTill` (lines 114–127)
blocks: with the stop signal honoured it is
`(_num_finished + _num_killed) >= num_tasks || _stop`, with
`_ignoreStopSignal` set the `_stop` disjunct is dropped. The call returns
once this holds of the shared state. -/
def WaitTillWake (s : PoolState) (num_tasks : Nat) (ignoreStopSignal : Bool) : Bool :=
  if !ignoreStopSignal then
    decide (s._num_finished + s._num_killed ≥ num_tasks) || s._stop
  else
    decide (s._num_finished + s._num_killed ≥ num_tasks)

/-- The value `WaitTill` (line 126) returns, read from the state at the
moment it is woken: `_num_finished >= num_tasks`. -/
def WaitTillRet (s : PoolState) (num_tasks : Nat) : Bool :=
  decide (s._num_finished ≥ num_tasks)

/-- Wake predicate of `WaitTillAll` (lines 130–132):
`WaitTill(_num_started + _num_detached, _ignoreStopSignal)`. -/
def WaitTillAllWake (s : PoolState) (ignoreStopSignal : Bool) : Bool :=
  WaitTillWake s (s._num_started + s._num_detached) ignoreStopSignal

/-- Return value of `WaitTillAll` (lines 130–132). -/
def WaitTillAllRet (s : PoolState) : Bool :=
  WaitTillRet s (s._num_started + s._num_detached)

/-- `Detach` (lines 145–157): set `_stop`, detach every worker handle
(making it non-joinable), and increment `_num_detached` once per handle. -/
def Detach (s : PoolState) : PoolState :=
  { s with _stop := true
           _threads := s._threads.map (fun _b => false)
           _num_detached := s._num_detached + s._threads.length }

/-- `Stop` (lines 161–172): set `_stop` and run the drain loop, counting
every still-pending task as killed. Worker handles are left alone. -/
def Stop (s : PoolState) : PoolState :=
  let drained := drainKill s._tasks s._num_killed
  { s with _stop := true, _tasks := drained.1, _num_killed := drained.2 }

/-- The join loop of `ResetThreadNum` (lines 203–209): every handle with
index in `[lo, length)` is joined if joinable, leaving it non-joinable;
handles below `lo` are untouched. -/
def joinFrom (threads : List Bool) (lo : Nat) : List Bool :=
  threads.mapIdx (fun i b => if lo ≤ i then false else b)

/-- `ResetThreadNum` (lines 192–222). Shrinking (`num_threads <
_num_threads`): set `_stop`, drain-kill the queue, join every handle at
index `>= num_threads`, truncate `_threads` to the new size, set
`_num_threads`, and finally clear `_stop`. Growing: set `_num_threads` and
spawn fresh joinable handles until `_threads` reaches the new size.
Equal: nothing happens. -/
def ResetThreadNum (num_threads : Nat) (s : PoolState) : PoolState :=
  if num_threads < s._num_threads then
    let drained := drainKill s._tasks s._num_killed
    { s with _stop := false
             _tasks := drained.1
             _num_killed := drained.2
             _threads := (joinFrom s._threads num_threads).take num_threads
             _num_threads := num_threads }
  else if num_threads > s._num_threads then
    { s with _num_threads := num_threads
             _threads := s._threads ++
               List.replicate (num_threads - s._threads.length) true }
  else s

/-- `StopForced` (lines 176–189): the body of `Stop`, then
`ResetThreadNum(0)`. -/
def StopForced (s : PoolState) : PoolState :=
  ResetThreadNum 0 (Stop s)

/-- `Valid` (lines 225–228). -/
def Valid (s : PoolState) : Bool :=
  !s._stop

/-- `ThreadNum` (lines 231–234). -/
def ThreadNum (s : PoolState) : Nat :=
  s._num_threads

/-- `StartedNum` (lines 237–240). -/
def StartedNum (s : PoolState) : Nat :=
  s._num_started

/-- `FinishedNum` (lines 243–246). -/
def FinishedNum (s : PoolState) : Nat :=
  s._num_finished

/-- `KilledNum` (lines 249–252). -/
def KilledNum (s : PoolState) : Nat :=
  s._num_killed

/-- `DetachedNum` (lines 255–258). -/
def DetachedNum (s : PoolState) : Nat :=
  s._num_detached

/-- `Destroy` (lines 262–276), run by the destructor (lines 70–72): set
`_stop`, then for every worker handle join it when joinable and increment
`_num_killed` — once per handle, joinable or not. -/
def Destroy (s : PoolState) : PoolState :=
  { s with _stop := true
           _threads := s._threads.map (fun _b => false)
           _num_killed := s._num_killed + s._threads.length }

/-- One productive iteration of the worker loop `_working_task`
(lines 38–58): when the queue is non-empty, take the front task, run it,
and increment `_num_finished`. With an empty queue the worker either keeps
waiting or (under `_stop`) exits; both leave the state unchanged. -/
def workerRunOnce (s : PoolState) : PoolState :=
  match s._tasks with
  | [] => s
  | _t :: rest => { s with _tasks := rest, _num_finished := s._num_finished + 1 }

/-- The operations whose sequences generate the reachable pool states. -/
inductive Op where
  | invoke (t : Nat)
  | workerRun
  | killAllPending
  | stopOp
  | stopForced
  | resetThreadNum (k : Nat)
  | detach
  | destroy
deriving Repr, DecidableEq

/-- The state transformer an operation denotes. -/
def Op.apply : Op → PoolState → PoolState
  | .invoke t, s => Invoke t s
  | .workerRun, s => workerRunOnce s
  | .killAllPending, s => KillAllPending s
  | .stopOp, s => Stop s
  | .stopForced, s => StopForced s
  | .resetThreadNum k, s => ResetThreadNum k s
  | .detach, s => Detach s
  | .destroy, s => Destroy s

/-- Run a sequence of operations left to right. -/
def run (s : PoolState) : List Op → PoolState
  | [] => s
  | op :: ops => run (op.apply s) ops

/-- The accounting invariant the non-destroy operations preserve: every
task still in the queue, every finished task and every killed task was
counted by `_num_started` at its `Invoke`, and no task is counted twice. -/
def Accounted (s : PoolState) : Prop :=
  s._num_finished + s._num_killed + s._tasks.length ≤ s._num_started

theorem drainKill_eq (ts : List Nat) (killed : Nat) :
    drainKill ts killed = ([], killed + ts.length) := by
  induction ts generalizing killed with
  | nil => simp [drainKill]
  | cons t rest ih =>
      simp [drainKill, ih, Nat.add_comm, Nat.add_assoc, Nat.add_left_comm]

theorem accounted_Invoke (t : Nat) (s : PoolState) (h : Accounted s) :
    Accounted (Invoke t s) := by
  unfold Accounted Invoke at *
  by_cases hs : s._stop <;> simp [hs] <;> omega

theorem accounted_workerRunOnce (s : PoolState) (h : Accounted s) :
    Accounted (workerRunOnce s) := by
  unfold Accounted workerRunOnce at *
  cases hts : s._tasks with
  | nil => simpa using h
  | cons t rest => rw [hts] at h; simp at h ⊢; omega

theorem accounted_KillAllPending (s : PoolState) (h : Accounted s) :
    Accounted (KillAllPending s) := by
  unfold Accounted KillAllPending at *
  simp [drainKill_eq] at *
  omega

theorem accounted_Stop (s : PoolState) (h : Accounted s) :
    Accounted (Stop s) := by
  unfold Accounted Stop at *
  simp [drainKill_eq] at *
  omega

theorem accounted_ResetThreadNum (k : Nat) (s : PoolState) (h : Accounted s) :
    Accounted (ResetThreadNum k s) := by
  unfold Accounted ResetThreadNum at *
  by_cases h1 : k < s._num_threads
  · simp [h1, drainKill_eq] at *; omega
  · by_cases h2 : k > s._num_threads <;> simp [h1, h2] at * <;> omega

theorem accounted_StopForced (s : PoolState) (h : Accounted s) :
    Accounted (StopForced s) :=
  accounted_ResetThreadNum 0 (Stop s) (accounted_Stop s h)

theorem accounted_Detach (s : PoolState) (h : Accounted s) :
    Accounted (Detach s) := by
  unfold Accounted Detach at *
  simpa using h

theorem accounted_apply (op : Op) (s : PoolState) (hop : op ≠ Op.destroy)
    (h : Accounted s) : Accounted (op.apply s) := by
  cases op with
  | invoke t => exact accounted_Invoke t s h
  | workerRun => exact accounted_workerRunOnce s h
  | killAllPending => exact accounted_KillAllPending s h
  | stopOp => exact accounted_Stop s h
  | stopForced => exact accounted_StopForced s h
  | resetThreadNum k => exact accounted_ResetThreadNum k s h
  | detach => exact accounted_Detach s h
  | destroy => exact absurd rfl hop

theorem accounted_run (ops : List Op) (s : PoolState)
    (hops : Op.destroy ∉ ops) (h : Accounted s) : Accounted (run s ops) := by
  induction ops generalizing s with
  | nil => exact h
  | cons op rest ih =>
      rw [List.mem_cons, not_or] at hops
      exact ih (op.apply s) hops.2 (accounted_apply op s (Ne.symm hops.1) h)

theorem accounted_construct (n : Nat) : Accounted (construct n) := by
  simp [Accounted, construct]

/-- Claim C1 counterexample: destruction breaks the accounting bound. A
pool constructed with one worker and destroyed immediately has
`_num_killed = 1` with `_num_started = 0`: `Destroy` counts every worker
handle as killed, so `finished + killed <= started` fails on this
reachable state. -/
theorem C1_destroy_violates_accounting :
    ¬ ((run (construct 1) [Op.destroy])._num_finished +
        (run (construct 1) [Op.destroy])._num_killed ≤
        (run (construct 1) [Op.destroy])._num_started) := by
  decide

/-- Claim C1 (amended): in every pool state reachable from construction by
any sequence of operations other than destruction — Invoke, worker
execution, KillAllPending, Stop, StopForced, ResetThreadNum, Detach —
`finished + killed <= started` holds. Destruction itself increments
`killed` once per worker handle and can violate the bound. -/
theorem C1_accounting_invariant_without_destroy (n : Nat) (ops : List Op)
    (hops : Op.destroy ∉ ops) :
    (run (construct n) ops)._num_finished +
      (run (construct n) ops)._num_killed ≤
      (run (construct n) ops)._num_started := by
  have h := accounted_run ops (construct n) hops (accounted_construct n)
  unfold Accounted at h
  omega

/-- Witness for C1: a concrete destroy-free run satisfying the bound. -/
theorem C1_accounting_witness :
    Op.destroy ∉ [Op.invoke 7, Op.workerRun, Op.stopOp] ∧
    (run (construct 2) [Op.invoke 7, Op.workerRun, Op.stopOp])._num_finished +
      (run (construct 2) [Op.invoke 7, Op.workerRun, Op.stopOp])._num_killed ≤
      (run (construct 2) [Op.invoke 7, Op.workerRun, Op.stopOp])._num_started :=
  ⟨by decide,
    C1_accounting_invariant_without_destroy 2
      [Op.invoke 7, Op.workerRun, Op.stopOp] (by decide)⟩

/-- Claim C2: `WaitTill(n, ignoreStopSignal)` wakes exactly when
`finished + killed >= n`, or — unless `ignoreStopSignal` is set — when the
pool is stopped; and it returns true iff `finished >= n` holds in the
state at the moment it returns. -/
theorem C2_waitTill_wake_and_return (s : PoolState) (num_tasks : Nat)
    (ignoreStopSignal : Bool) :
    (WaitTillWake s num_tasks ignoreStopSignal = true ↔
      (num_tasks ≤ s._num_finished + s._num_killed ∨
        (ignoreStopSignal = false ∧ s._stop = true))) ∧
    (WaitTillRet s num_tasks = true ↔ num_tasks ≤ s._num_finished) := by
  cases ignoreStopSignal <;> simp [WaitTillWake, WaitTillRet]

/-- Claim C3: on a stopped pool, `Invoke` is a silent no-op — the entire
state (queue, all four counters, thread handles, thread count, stop flag)
is unchanged and nothing is reported. -/
theorem C3_invoke_stopped_noop (t : Nat) (s : PoolState)
    (h : s._stop = true) : Invoke t s = s := by
  simp [Invoke, h]

/-- Witness for C3: invoking on a concretely stopped pool changes
nothing. -/
theorem C3_invoke_stopped_witness :
    (Stop (construct 2))._stop = true ∧
    Invoke 5 (Stop (construct 2)) = Stop (construct 2) :=
  ⟨by decide, C3_invoke_stopped_noop 5 (Stop (construct 2)) (by decide)⟩

/-- Claim C4: after `ResetThreadNum(k)`, `ThreadNum()` equals `k`; when
`k` is below the current count the stop flag is cleared on return (so
`Valid()` is true and the pool is usable at the smaller size); and when
`k` equals the current count nothing at all changes. -/
theorem C4_resetThreadNum_postconditions (k : Nat) (s : PoolState) :
    ThreadNum (ResetThreadNum k s) = k ∧
    (k < s._num_threads →
      (ResetThreadNum k s)._stop = false ∧
      Valid (ResetThreadNum k s) = true) ∧
    (k = s._num_threads → ResetThreadNum k s = s) := by
  rcases Nat.lt_trichotomy k s._num_threads with h | h | h
  · refine ⟨?_, fun _ => ?_, fun he => absurd he (Nat.ne_of_lt h)⟩ <;>
      simp [ResetThreadNum, ThreadNum, Valid, h]
  · refine ⟨?_, fun hlt => absurd hlt (by omega), fun _ => ?_⟩ <;>
      simp [ResetThreadNum, ThreadNum, Valid, h]
  · refine ⟨?_, fun hlt => absurd hlt (by omega), fun he => absurd he (by omega)⟩
    simp [ResetThreadNum, ThreadNum, Valid, h, Nat.lt_asymm h]

/-- Witness for C4: shrinking a 3-worker pool to 1 yields thread count 1
with the stop flag cleared; resizing a 2-worker pool to 2 is the
identity. -/
theorem C4_resetThreadNum_witness :
    ThreadNum (ResetThreadNum 1 (construct 3)) = 1 ∧
    (ResetThreadNum 1 (construct 3))._stop = false ∧
    Valid (ResetThreadNum 1 (construct 3)) = true ∧
    ResetThreadNum 2 (construct 2) = construct 2 :=
  ⟨(C4_resetThreadNum_postconditions 1 (construct 3)).1,
    ((C4_resetThreadNum_postconditions 1 (construct 3)).2.1 (by decide)).1,
    ((C4_resetThreadNum_postconditions 1 (construct 3)).2.1 (by decide)).2,
    (C4_resetThreadNum_postconditions 2 (construct 2)).2.2 (by decide)⟩

/-- Claim C5: `KillAllPending` empties the queue, adds exactly the number
of previously pending tasks to `killed`, and leaves the stop flag, the
other three counters, the thread count and the worker handles unchanged. -/
theorem C5_killAllPending_spec (s : PoolState) :
    (KillAllPending s)._tasks = [] ∧
    (KillAllPending s)._num_killed = s._num_killed + s._tasks.length ∧
    (KillAllPending s)._stop = s._stop ∧
    (KillAllPending s)._num_started = s._num_started ∧
    (KillAllPending s)._num_finished = s._num_finished ∧
    (KillAllPending s)._num_detached = s._num_detached ∧
    (KillAllPending s)._num_threads = s._num_threads ∧
    (KillAllPending s)._threads = s._threads := by
  simp [KillAllPending, drainKill_eq]

/-- Claim C6: `Stop` is idempotent — a second call on the state the first
produced (no intervening submissions) changes no counter and no other
component of the state. -/
theorem C6_stop_idempotent (s : PoolState) : Stop (Stop s) = Stop s := by
  simp [Stop, drainKill_eq]

/-- Claim C7: on a non-stopped pool, `Invoke` appends the task at the tail
of the FIFO queue and increments `started` by exactly one, leaving
`finished`, `killed`, `detached`, the thread count, the worker handles and
the stop flag unchanged. -/
theorem C7_invoke_enqueues (t : Nat) (s : PoolState) (h : s._stop = false) :
    (Invoke t s)._tasks = s._tasks ++ [t] ∧
    (Invoke t s)._num_started = s._num_started + 1 ∧
    (Invoke t s)._num_finished = s._num_finished ∧
    (Invoke t s)._num_killed = s._num_killed ∧
    (Invoke t s)._num_detached = s._num_detached ∧
    (Invoke t s)._num_threads = s._num_threads ∧
    (Invoke t s)._threads = s._threads ∧
    (Invoke t s)._stop = s._stop := by
  simp [Invoke, h]

/-- Witness for C7: invoking task 9 on a fresh 2-worker pool enqueues it
and bumps `started` to 1. -/
theorem C7_invoke_witness :
    (Invoke 9 (construct 2))._tasks = (construct 2)._tasks ++ [9] ∧
    (Invoke 9 (construct 2))._num_started = (construct 2)._num_started + 1 :=
  ⟨(C7_invoke_enqueues 9 (construct 2) (by decide)).1,
    (C7_invoke_enqueues 9 (construct 2) (by decide)).2.1⟩

/-- Claim C8: `Destroy` sets the stop flag, joins every still-joinable
worker (afterwards no handle is joinable), and increments `killed` by
exactly the number of worker handles the pool holds — idle or mid-task
alike. -/
theorem C8_destroy_spec (s : PoolState) :
    (Destroy s)._stop = true ∧
    (Destroy s)._num_killed = s._num_killed + s._threads.length ∧
    (Destroy s)._threads = List.replicate s._threads.length false ∧
    (Destroy s)._num_finished = s._num_finished ∧
    (Destroy s)._num_started = s._num_started := by
  refine ⟨rfl, rfl, ?_, rfl, rfl⟩
  simp [Destroy, List.map_const']

/-- Claim C9: `WaitTillAll(ignoreStopSignal)` has exactly the wake
condition and the return value of
`WaitTill(started + detached, ignoreStopSignal)` evaluated at the call. -/
theorem C9_waitTillAll_refines_waitTill (s : PoolState)
    (ignoreStopSignal : Bool) :
    WaitTillAllWake s ignoreStopSignal =
      WaitTillWake s (s._num_started + s._num_detached) ignoreStopSignal ∧
    WaitTillAllRet s = WaitTillRet s (s._num_started + s._num_detached) :=
  ⟨rfl, rfl⟩

/-- Claim C10: `StopForced` on a pool with at least one worker clears the
stop flag (`Valid` is true, the thread count is 0, and a subsequent
`Invoke` enqueues its task even with zero workers); on a pool that already
has zero workers the stop flag stays set and `Valid` is false. -/
theorem C10_stopForced_valid_toggle (s : PoolState) :
    (1 ≤ s._num_threads →
      (StopForced s)._stop = false ∧
      Valid (StopForced s) = true ∧
      ThreadNum (StopForced s) = 0 ∧
      ∀ t, (Invoke t (StopForced s))._tasks = (StopForced s)._tasks ++ [t]) ∧
    (s._num_threads = 0 →
      (StopForced s)._stop = true ∧ Valid (StopForced s) = false) := by
  constructor
  · intro h
    have h0 : 0 < s._num_threads := h
    simp [StopForced, Stop, drainKill_eq, ResetThreadNum, h0, Valid,
      ThreadNum, Invoke]
  · intro h
    simp [StopForced, Stop, drainKill_eq, ResetThreadNum, h, Valid]

/-- Witness for C10: forcing a 2-worker pool to stop leaves it valid at
zero threads and still accepting a task into the queue; forcing an already
zero-thread pool leaves it stopped. -/
theorem C10_stopForced_witness :
    ((StopForced (construct 2))._stop = false ∧
      Valid (StopForced (construct 2)) = true ∧
      ThreadNum (StopForced (construct 2)) = 0 ∧
      (Invoke 3 (StopForced (construct 2)))._tasks =
        (StopForced (construct 2))._tasks ++ [3]) ∧
    ((StopForced (construct 0))._stop = true ∧
      Valid (StopForced (construct 0)) = false) := by
  constructor
  · have h := (C10_stopForced_valid_toggle (construct 2)).1 (by decide)
    exact ⟨h.1, h.2.1, h.2.2.1, h.2.2.2 3⟩
  · exact (C10_stopForced_valid_toggle (construct 0)).2 (by decide)

end ThreadPool
